import Mathlib

/-!
Shallow embedding of `src/server.py` (node-camoufox): the `--config`
loader and the single call into the external `launch_server` capability.

Python strings are modelled as `List Char`.  The behaviour of
`str.strip()` / `str.strip('"\x27')` is modelled by `stripChars`, and
`json.loads` by a fueled recursive-descent parser `json_loads` over a
`Json` value type.  JSON numbers are kept as their lexeme (the exact
digit string), since the program never inspects numeric values.
-/

/-- Character constant: the double-quote character. -/
def dquote : Char := '\x22'

/-- Character constant: the single-quote character. -/
def squote : Char := '\x27'

/-- Character constant: the opening curly brace. -/
def lbrace : Char := '\x7b'

/-- Character constant: the closing curly brace. -/
def rbrace : Char := '\x7d'

/-- Character constant: the backslash character. -/
def bslash : Char := '\x5c'

/-- Whitespace characters removed by Python's `str.strip()` (the ASCII
whitespace set: space, tab, newline, carriage return, vertical tab,
form feed). -/
def isPyWs (c : Char) : Bool :=
  c == '\x20' || c == '\x09' || c == '\x0a' || c == '\x0d' || c == '\x0b' || c == '\x0c'

/-- The characters removed by `str.strip('"\x27')` in `load_config`:
double quote and single quote. -/
def isQuoteChar (c : Char) : Bool :=
  c == dquote || c == squote

/-- Python `str.strip(set)`: remove the maximal run of characters
satisfying `p` from both ends of the string. -/
def stripChars (p : Char → Bool) (s : List Char) : List Char :=
  ((s.dropWhile p).reverse.dropWhile p).reverse

/-- Model of `args.config.strip()`. -/
def pyStrip (s : List Char) : List Char :=
  stripChars isPyWs s

/-- Model of `.strip('"\x27')`. -/
def stripQuoteChars (s : List Char) : List Char :=
  stripChars isQuoteChar s

/-- Model of `args.config.strip().strip('"\x27')`: the sanitization the
source applies before `json.loads`. -/
def sanitize (s : List Char) : List Char :=
  stripQuoteChars (pyStrip s)

/-- JSON values as produced by `json.loads`.  `num` keeps the numeric
lexeme verbatim; `obj` keeps the member list in source order (lookup is
last-occurrence-wins, matching Python dict construction). -/
inductive Json where
  | null : Json
  | bool : Bool → Json
  | num : List Char → Json
  | str : List Char → Json
  | arr : List Json → Json
  | obj : List (List Char × Json) → Json

/-- Test whether a JSON value is an object (a Python dict). -/
def Json.isObj : Json → Bool
  | Json.obj _ => true
  | _ => false

/-- JSON document whitespace (the set skipped by Python's json scanner:
space, tab, newline, carriage return). -/
def isJsonWs (c : Char) : Bool :=
  c == '\x20' || c == '\x09' || c == '\x0a' || c == '\x0d'

/-- Skip leading JSON whitespace. -/
def skipWs : List Char → List Char
  | [] => []
  | c :: rest => if isJsonWs c then skipWs rest else c :: rest

/-- Remove an expected literal from the front of the input, failing when
it is not present. -/
def stripPre : List Char → List Char → Option (List Char)
  | [], s => some s
  | _, [] => none
  | a :: ps, b :: bs => if a == b then stripPre ps bs else none

/-- Lexeme of the JSON literal `true`. -/
def trueLit : List Char := ("true".toList)

/-- Lexeme of the JSON literal `false`. -/
def falseLit : List Char := ("false".toList)

/-- Lexeme of the JSON literal `null`. -/
def nullLit : List Char := ("null".toList)

/-- Lexeme of the non-standard constant `NaN` accepted by Python. -/
def nanLit : List Char := ("NaN".toList)

/-- Lexeme of the non-standard constant `Infinity` accepted by Python. -/
def infLit : List Char := ("Infinity".toList)

/-- Lexeme of the non-standard constant `-Infinity` accepted by Python. -/
def negInfLit : List Char := ("-Infinity".toList)

/-- Recognize the keyword tokens of the JSON grammar as accepted by
Python's json scanner. -/
def keywordToken (s : List Char) : Option (Json × List Char) :=
  match stripPre trueLit s with
  | some r => some (Json.bool true, r)
  | none =>
  match stripPre falseLit s with
  | some r => some (Json.bool false, r)
  | none =>
  match stripPre nullLit s with
  | some r => some (Json.null, r)
  | none =>
  match stripPre nanLit s with
  | some r => some (Json.num nanLit, r)
  | none =>
  match stripPre infLit s with
  | some r => some (Json.num infLit, r)
  | none =>
  match stripPre negInfLit s with
  | some r => some (Json.num negInfLit, r)
  | none => none

/-- Hexadecimal digit value, for string escapes. -/
def hexVal (c : Char) : Option Nat :=
  if c.isDigit then some (c.toNat - 48)
  else if 97 ≤ c.toNat && c.toNat ≤ 102 then some (c.toNat - 87)
  else if 65 ≤ c.toNat && c.toNat ≤ 70 then some (c.toNat - 55)
  else none

/-- Translate a single-character JSON string escape. -/
def escChar (e : Char) : Option Char :=
  if e == dquote then some dquote
  else if e == bslash then some bslash
  else if e == '/' then some '/'
  else if e == 'b' then some '\x08'
  else if e == 'f' then some '\x0c'
  else if e == 'n' then some '\x0a'
  else if e == 'r' then some '\x0d'
  else if e == 't' then some '\x09'
  else none

/-- Parse the body of a JSON string (after the opening quote), returning
the decoded characters and the rest of the input.  Fuel bounds the
recursion; it is always supplied generously by `json_loads`. -/
def parseStringBody : Nat → List Char → Option (List Char × List Char)
  | 0, _ => none
  | fuel + 1, s =>
    match s with
    | [] => none
    | c :: rest =>
      if c == dquote then some ([], rest)
      else if c == bslash then
        match rest with
        | [] => none
        | e :: rest2 =>
          if e == 'u' then
            match rest2 with
            | h1 :: h2 :: h3 :: h4 :: rest3 =>
              match hexVal h1, hexVal h2, hexVal h3, hexVal h4 with
              | some a, some b, some c2, some d =>
                (parseStringBody fuel rest3).map
                  (fun pr => (Char.ofNat (((a * 16 + b) * 16 + c2) * 16 + d) :: pr.1, pr.2))
              | _, _, _, _ => none
            | _ => none
          else
            match escChar e with
            | some ec => (parseStringBody fuel rest2).map (fun pr => (ec :: pr.1, pr.2))
            | none => none
      else if c.toNat < 32 then none
      else (parseStringBody fuel rest).map (fun pr => (c :: pr.1, pr.2))

/-- Take the maximal run of decimal digits from the front of the input. -/
def spanDigits : List Char → List Char × List Char
  | [] => ([], [])
  | c :: rest =>
    if c.isDigit then
      let pr := spanDigits rest
      (c :: pr.1, pr.2)
    else ([], c :: rest)

/-- Integer part of a JSON number: `0`, or a nonzero digit followed by
digits (leading zeros are rejected, as in Python's number regex). -/
def lexIntPart : List Char → Option (List Char × List Char)
  | [] => none
  | c :: rest =>
    if c == '0' then some (['0'], rest)
    else if c.isDigit then
      let pr := spanDigits rest
      some (c :: pr.1, pr.2)
    else none

/-- Optional fraction part of a JSON number. -/
def lexFracPart : List Char → Option (List Char × List Char)
  | [] => some ([], [])
  | c :: rest =>
    if c == '.' then
      match spanDigits rest with
      | ([], _) => none
      | (ds, r) => some ('.' :: ds, r)
    else some ([], c :: rest)

/-- Optional exponent part of a JSON number. -/
def lexExpPart : List Char → Option (List Char × List Char)
  | [] => some ([], [])
  | c :: rest =>
    if c == 'e' || c == 'E' then
      match rest with
      | [] => none
      | c2 :: rest2 =>
        if c2 == '+' || c2 == '-' then
          match spanDigits rest2 with
          | ([], _) => none
          | (ds, r) => some (c :: c2 :: ds, r)
        else
          match spanDigits rest with
          | ([], _) => none
          | (ds, r) => some (c :: ds, r)
    else some ([], c :: rest)

/-- Lex a JSON number, returning its lexeme and the rest of the input. -/
def lexNumber (s : List Char) : Option (List Char × List Char) :=
  let sp : List Char × List Char :=
    match s with
    | c :: rest => if c == '-' then (['-'], rest) else ([], s)
    | [] => ([], [])
  match lexIntPart sp.2 with
  | none => none
  | some (ip, r1) =>
    match lexFracPart r1 with
    | none => none
    | some (fp, r2) =>
      match lexExpPart r2 with
      | none => none
      | some (ep, r3) => some (sp.1 ++ ip ++ fp ++ ep, r3)

mutual

/-- Parse a JSON value positioned at a non-whitespace character. -/
def parseValue : Nat → List Char → Option (Json × List Char)
  | 0, _ => none
  | fuel + 1, s =>
    match keywordToken s with
    | some pr => some pr
    | none =>
      match s with
      | [] => none
      | c :: rest =>
        if c == dquote then
          match parseStringBody fuel rest with
          | some (cs, r) => some (Json.str cs, r)
          | none => none
        else if c == lbrace then parseObjStart fuel (skipWs rest)
        else if c == '[' then parseArrayStart fuel (skipWs rest)
        else
          match lexNumber (c :: rest) with
          | some (lex, r) => some (Json.num lex, r)
          | none => none

/-- Parse the inside of an array right after `[` (whitespace skipped). -/
def parseArrayStart : Nat → List Char → Option (Json × List Char)
  | 0, _ => none
  | fuel + 1, s =>
    match s with
    | [] => none
    | c :: rest =>
      if c == ']' then some (Json.arr [], rest)
      else
        match parseValue fuel (c :: rest) with
        | some (v, r) => parseArrayRest fuel [v] (skipWs r)
        | none => none

/-- Parse the continuation of an array after at least one element. -/
def parseArrayRest : Nat → List Json → List Char → Option (Json × List Char)
  | 0, _, _ => none
  | fuel + 1, acc, s =>
    match s with
    | [] => none
    | c :: rest =>
      if c == ']' then some (Json.arr acc.reverse, rest)
      else if c == ',' then
        match parseValue fuel (skipWs rest) with
        | some (v, r) => parseArrayRest fuel (v :: acc) (skipWs r)
        | none => none
      else none

/-- Parse the inside of an object right after the opening brace
(whitespace skipped): either the closing brace or a first member key. -/
def parseObjStart : Nat → List Char → Option (Json × List Char)
  | 0, _ => none
  | fuel + 1, s =>
    match s with
    | [] => none
    | c :: rest =>
      if c == rbrace then some (Json.obj [], rest)
      else if c == dquote then
        match parseStringBody fuel rest with
        | some (k, r1) => parseObjMember fuel [] k (skipWs r1)
        | none => none
      else none

/-- Parse the `: value` of an object member whose key was just read. -/
def parseObjMember :
    Nat → List (List Char × Json) → List Char → List Char → Option (Json × List Char)
  | 0, _, _, _ => none
  | fuel + 1, acc, k, s =>
    match s with
    | [] => none
    | c :: rest =>
      if c == ':' then
        match parseValue fuel (skipWs rest) with
        | some (v, r) => parseObjRest fuel ((k, v) :: acc) (skipWs r)
        | none => none
      else none

/-- Parse the continuation of an object after at least one member. -/
def parseObjRest : Nat → List (List Char × Json) → List Char → Option (Json × List Char)
  | 0, _, _ => none
  | fuel + 1, acc, s =>
    match s with
    | [] => none
    | c :: rest =>
      if c == rbrace then some (Json.obj acc.reverse, rest)
      else if c == ',' then
        match skipWs rest with
        | [] => none
        | c2 :: rest2 =>
          if c2 == dquote then
            match parseStringBody fuel rest2 with
            | some (k, r1) => parseObjMember fuel acc k (skipWs r1)
            | none => none
          else none
      else none

end

/-- Model of `json.loads`: parse one JSON document, allowing surrounding
whitespace and rejecting trailing garbage.  `none` models a raised
`json.JSONDecodeError`. -/
def json_loads (s : List Char) : Option Json :=
  match parseValue (2 * s.length + 8) (skipWs s) with
  | some (v, r) => if skipWs r = [] then some v else none
  | none => none

/-- Diagnostic output lines produced by `load_config` on a decode
failure: the parse-error report and the echo of the raw input string. -/
inductive Diag where
  | parseError : Diag
  | received : List Char → Diag
deriving DecidableEq

/-- Result of `load_config`: the returned value (the decoded JSON, or
the empty dict `Json.obj []`) together with the diagnostic lines
printed.  A raised exception is impossible here: the source catches
`json.JSONDecodeError`, the only error its body raises. -/
structure LoadResult where
  value : Json
  printed : List Diag

/-- Model of `load_config()`.  The argument is the value of the
`--config` flag (`none` when the flag is omitted; argparse yields
`None`).  Python truthiness makes both `None` and the empty string take
the defaults branch without sanitization or decoding. -/
def load_config (config : Option (List Char)) : LoadResult :=
  match config with
  | none => ⟨Json.obj [], []⟩
  | some s =>
    if s = [] then ⟨Json.obj [], []⟩
    else
      match json_loads (sanitize s) with
      | some v => ⟨v, []⟩
      | none => ⟨Json.obj [], [Diag.parseError, Diag.received s]⟩

/-- Last-occurrence-wins lookup in a decoded JSON object, matching the
Python dict built by `json.loads` (later duplicate keys override) and
read by `config.get`. -/
def dictLookup (d : List (List Char × Json)) (k : List Char) : Option Json :=
  match d with
  | [] => none
  | (k2, v) :: rest =>
    match dictLookup rest k with
    | some v2 => some v2
    | none => if k2 = k then some v else none

/-- Model of `config.get(key, default)` on a dict. -/
def dictGet (d : List (List Char × Json)) (k : List Char) (dflt : Json) : Json :=
  (dictLookup d k).getD dflt

/-- The eight named arguments of the external `launch_server` call,
with the source's parameter names.  `Json.null` doubles as Python
`None` (the default of `config.get('proxy')`). -/
structure LaunchArgs where
  headless : Json
  geoip : Json
  proxy : Json
  humanize : Json
  showcursor : Json
  block_images : Json
  main_world_eval : Json
  debug : Json

/-- The eight argument values `main` computes from a decoded config
dict: each is `config.get(externalKey, default)` exactly as written at
the `launch_server` call site. -/
def launchArgsOf (d : List (List Char × Json)) : LaunchArgs :=
  { headless := dictGet d ("headless".toList) (Json.bool true),
    geoip := dictGet d ("geoip".toList) (Json.bool true),
    proxy := dictGet d ("proxy".toList) Json.null,
    humanize := dictGet d ("humanize".toList) (Json.bool true),
    showcursor := dictGet d ("showcursor".toList) (Json.bool true),
    block_images := dictGet d ("blockImages".toList) (Json.bool false),
    main_world_eval := dictGet d ("mainWorldEval".toList) (Json.bool true),
    debug := dictGet d ("debug".toList) (Json.bool false) }

/-- The documented all-defaults configuration. -/
def defaultLaunchArgs : LaunchArgs :=
  { headless := Json.bool true,
    geoip := Json.bool true,
    proxy := Json.null,
    humanize := Json.bool true,
    showcursor := Json.bool true,
    block_images := Json.bool false,
    main_world_eval := Json.bool true,
    debug := Json.bool false }

/-- Uncaught Python exceptions `main` can raise after `load_config`
returns: `config.get(...)` on a non-dict value raises
`AttributeError`, which nothing catches. -/
inductive PyError where
  | attributeError : PyError

/-- Model of `main()` (named `main_entry`, since Lean reserves `main`
for executable entry points): load the configuration, then evaluate the eight
`config.get` arguments.  When the loaded value is not a dict the first
`.get` raises before `launch_server` is ever entered; otherwise
`launch_server` is called once with the eight named arguments. -/
def main_entry (config : Option (List Char)) : Except PyError LaunchArgs :=
  match (load_config config).value with
  | Json.obj d => Except.ok (launchArgsOf d)
  | _ => Except.error PyError.attributeError

/-- The sequence of calls `main` performs into the external
`launch_server` capability, each recorded with its eight named
arguments. -/
def mainTrace (config : Option (List Char)) : List LaunchArgs :=
  match main_entry config with
  | Except.ok a => [a]
  | Except.error _ => []

/-- The eight recognized option names, as an enumeration. -/
inductive ConfigOption where
  | headless | geoip | proxy | humanize | showcursor | blockImages | mainWorldEval | debug
deriving DecidableEq

/-- External (camel-cased) JSON key of each recognized option. -/
def optKeyChars : ConfigOption → List Char
  | ConfigOption.headless => ("headless".toList)
  | ConfigOption.geoip => ("geoip".toList)
  | ConfigOption.proxy => ("proxy".toList)
  | ConfigOption.humanize => ("humanize".toList)
  | ConfigOption.showcursor => ("showcursor".toList)
  | ConfigOption.blockImages => ("blockImages".toList)
  | ConfigOption.mainWorldEval => ("mainWorldEval".toList)
  | ConfigOption.debug => ("debug".toList)

/-- Documented default of each recognized option. -/
def optDefault : ConfigOption → Json
  | ConfigOption.headless => Json.bool true
  | ConfigOption.geoip => Json.bool true
  | ConfigOption.proxy => Json.null
  | ConfigOption.humanize => Json.bool true
  | ConfigOption.showcursor => Json.bool true
  | ConfigOption.blockImages => Json.bool false
  | ConfigOption.mainWorldEval => Json.bool true
  | ConfigOption.debug => Json.bool false

/-- Project the launcher argument corresponding to an option. -/
def optOf (a : LaunchArgs) : ConfigOption → Json
  | ConfigOption.headless => a.headless
  | ConfigOption.geoip => a.geoip
  | ConfigOption.proxy => a.proxy
  | ConfigOption.humanize => a.humanize
  | ConfigOption.showcursor => a.showcursor
  | ConfigOption.blockImages => a.block_images
  | ConfigOption.mainWorldEval => a.main_world_eval
  | ConfigOption.debug => a.debug

/-- The eight recognized JSON keys. -/
def recognizedKeyList : List (List Char) :=
  [("headless".toList), ("geoip".toList), ("proxy".toList), ("humanize".toList),
   ("showcursor".toList), ("blockImages".toList), ("mainWorldEval".toList), ("debug".toList)]

/-- Follows the spec's words, for comparison with the code's
`sanitize`: strip "a single layer of surrounding quote characters
(double or single)" from an already-trimmed string — when the first and
last characters are the same quote character, remove exactly those two
characters, and otherwise leave the string unchanged. -/
def specOneLayerStrip (s : List Char) : List Char :=
  match s.head?, s.getLast? with
  | some a, some b =>
    if 2 ≤ s.length ∧ isQuoteChar a = true ∧ isQuoteChar b = true ∧ a = b then
      (s.drop 1).dropLast
    else s
  | _, _ => s

/-! Helper lemmas about the stripping primitives. -/

/-- Dropping a satisfied run distributes over an all-satisfying chunk. -/
theorem dropWhile_append_all (p : Char → Bool) (as t : List Char) (h : as.all p = true) :
    (as ++ t).dropWhile p = t.dropWhile p := by
  induction as with
  | nil => rfl
  | cons a as ih =>
    rw [List.all_cons, Bool.and_eq_true] at h
    rw [List.cons_append, List.dropWhile_cons, if_pos h.1]
    exact ih h.2

/-- A list whose head does not satisfy `p` is unchanged by `dropWhile`. -/
theorem dropWhile_eq_self (p : Char → Bool) (l : List Char)
    (h : l.head?.all (fun c => !p c) = true) : l.dropWhile p = l := by
  cases l with
  | nil => rfl
  | cons a t =>
    rw [List.head?_cons, Option.all_some, Bool.not_eq_true'] at h
    rw [List.dropWhile_cons, if_neg (by rw [h]; exact Bool.false_ne_true)]

/-- A list all of whose elements satisfy `p` is emptied by `dropWhile`. -/
theorem dropWhile_eq_nil_of_all (p : Char → Bool) (l : List Char) (h : l.all p = true) :
    l.dropWhile p = [] := by
  have := dropWhile_append_all p l [] h
  rwa [List.append_nil] at this

/-- The head of a `dropWhile` result never satisfies `p`. -/
theorem head?_dropWhile_not (p : Char → Bool) (l : List Char) :
    (l.dropWhile p).head?.all (fun c => !p c) = true := by
  induction l with
  | nil => rfl
  | cons a t ih =>
    rw [List.dropWhile_cons]
    by_cases h : p a = true
    · rw [if_pos h]; exact ih
    · rw [if_neg h, List.head?_cons, Option.all_some]
      rw [Bool.not_eq_true] at h
      rw [h]; rfl

/-- `dropWhile` keeps the last element when its result is nonempty. -/
theorem getLast?_dropWhile (p : Char → Bool) (l : List Char) (h : l.dropWhile p ≠ []) :
    (l.dropWhile p).getLast? = l.getLast? := by
  induction l with
  | nil => exact absurd rfl h
  | cons a t ih =>
    rw [List.dropWhile_cons] at h ⊢
    by_cases hp : p a = true
    · rw [if_pos hp] at h ⊢
      have ht : t ≠ [] := by
        intro he
        rw [he] at h
        exact h rfl
      rw [ih h]
      cases t with
      | nil => exact absurd rfl ht
      | cons b u => rw [List.getLast?_cons_cons]
    · rw [if_neg hp]

/-- Reversal preserves `all`. -/
theorem all_of_all_reverse (p : Char → Bool) (l : List Char) (h : l.all p = true) :
    l.reverse.all p = true := by
  rw [List.all_eq_true] at h ⊢
  intro x hx
  exact h x (List.mem_reverse.mp hx)

/-- Stripping removes exactly an all-satisfying wrap around a core whose
ends do not satisfy `p`. -/
theorem stripChars_wrap (p : Char → Bool) (as mid bs : List Char)
    (ha : as.all p = true) (hb : bs.all p = true)
    (hh : mid.head?.all (fun c => !p c) = true)
    (hl : mid.getLast?.all (fun c => !p c) = true) :
    stripChars p (as ++ mid ++ bs) = mid := by
  unfold stripChars
  rw [List.append_assoc, dropWhile_append_all p as _ ha]
  cases mid with
  | nil =>
    rw [List.nil_append, dropWhile_eq_nil_of_all p bs hb]
    rfl
  | cons m mt =>
    have hh' : (!p m) = true := by rwa [List.head?_cons, Option.all_some] at hh
    have h1 : List.dropWhile p ((m :: mt) ++ bs) = (m :: mt) ++ bs :=
      dropWhile_eq_self p _
        (by rw [List.cons_append, List.head?_cons, Option.all_some]; exact hh')
    rw [h1, List.reverse_append]
    rw [dropWhile_append_all p bs.reverse _ (all_of_all_reverse p bs hb)]
    rw [dropWhile_eq_self p (m :: mt).reverse (by rw [List.head?_reverse]; exact hl)]
    exact List.reverse_reverse _

/-- A string whose ends do not satisfy `p` is unchanged by stripping. -/
theorem stripChars_id (p : Char → Bool) (l : List Char)
    (hh : l.head?.all (fun c => !p c) = true)
    (hl : l.getLast?.all (fun c => !p c) = true) :
    stripChars p l = l := by
  have := stripChars_wrap p [] l [] rfl rfl hh hl
  rwa [List.nil_append, List.append_nil] at this

/-- Stripping decomposes its input into an all-`p` front, the result,
and an all-`p` back. -/
theorem stripChars_decomp (p : Char → Bool) (s : List Char) :
    ∃ as bs, s = as ++ stripChars p s ++ bs ∧ as.all p = true ∧ bs.all p = true := by
  refine ⟨s.takeWhile p, ((s.dropWhile p).reverse.takeWhile p).reverse, ?_, ?_, ?_⟩
  · conv_lhs => rw [← List.takeWhile_append_dropWhile p s]
    rw [List.append_assoc]
    congr 1
    conv_lhs => rw [← List.reverse_reverse (s.dropWhile p),
      ← List.takeWhile_append_dropWhile p (s.dropWhile p).reverse]
    rw [List.reverse_append]
    rfl
  · rw [List.all_eq_true]
    intro x hx
    exact List.mem_takeWhile_imp hx
  · exact all_of_all_reverse p _ (by
      rw [List.all_eq_true]
      intro x hx
      exact List.mem_takeWhile_imp hx)

/-- The head of a stripped string never satisfies `p`. -/
theorem stripChars_head_not (p : Char → Bool) (s : List Char) :
    (stripChars p s).head?.all (fun c => !p c) = true := by
  unfold stripChars
  rw [List.head?_reverse]
  by_cases h : (s.dropWhile p).reverse.dropWhile p = []
  · rw [h]; rfl
  · rw [getLast?_dropWhile p _ h, List.getLast?_reverse]
    exact head?_dropWhile_not p s

/-- The last character of a stripped string never satisfies `p`. -/
theorem stripChars_getLast_not (p : Char → Bool) (s : List Char) :
    (stripChars p s).getLast?.all (fun c => !p c) = true := by
  unfold stripChars
  rw [List.getLast?_reverse]
  exact head?_dropWhile_not p _

/-! Helper lemmas about `load_config`, `main_entry` and `dictLookup`. -/

/-- Unfolding of `load_config` on a nonempty string that decodes. -/
theorem load_config_pos (s : List Char) (hne : s ≠ []) (v : Json)
    (hv : json_loads (sanitize s) = some v) : load_config (some s) = ⟨v, []⟩ := by
  show (if s = [] then (⟨Json.obj [], []⟩ : LoadResult)
    else match json_loads (sanitize s) with
      | some v => ⟨v, []⟩
      | none => ⟨Json.obj [], [Diag.parseError, Diag.received s]⟩) = _
  rw [if_neg hne, hv]

/-- Unfolding of `load_config` on a nonempty string that fails to
decode: the fallback result together with the two diagnostic lines. -/
theorem load_config_fail (s : List Char) (hne : s ≠ [])
    (hf : json_loads (sanitize s) = none) :
    load_config (some s) = ⟨Json.obj [], [Diag.parseError, Diag.received s]⟩ := by
  show (if s = [] then (⟨Json.obj [], []⟩ : LoadResult)
    else match json_loads (sanitize s) with
      | some v => ⟨v, []⟩
      | none => ⟨Json.obj [], [Diag.parseError, Diag.received s]⟩) = _
  rw [if_neg hne, hf]

/-- When the loaded value is a dict, `main_entry` reaches the launcher
call with the eight defaulted arguments. -/
theorem main_entry_of_obj (arg : Option (List Char)) (kvs : List (List Char × Json))
    (h : (load_config arg).value = Json.obj kvs) :
    main_entry arg = Except.ok (launchArgsOf kvs) := by
  unfold main_entry
  rw [h]

/-- When the loaded value is a dict, exactly one launcher call happens. -/
theorem mainTrace_of_obj (arg : Option (List Char)) (kvs : List (List Char × Json))
    (h : (load_config arg).value = Json.obj kvs) :
    mainTrace arg = [launchArgsOf kvs] := by
  unfold mainTrace
  rw [main_entry_of_obj arg kvs h]

/-- Filtering a dict by a key predicate that holds at `k` does not
change the lookup at `k`. -/
theorem dictLookup_filter (q : List Char × Json → Bool) (d : List (List Char × Json))
    (k : List Char) (hq : ∀ v, q (k, v) = true) :
    dictLookup (d.filter q) k = dictLookup d k := by
  induction d with
  | nil => rfl
  | cons kv rest ih =>
    obtain ⟨k2, v⟩ := kv
    rw [List.filter_cons]
    by_cases h : q (k2, v) = true
    · rw [if_pos h]
      show (match dictLookup (rest.filter q) k with
        | some v2 => some v2
        | none => if k2 = k then some v else none) = _
      rw [ih]
      rfl
    · rw [if_neg h, ih]
      have hne : k2 ≠ k := by
        intro he
        rw [he] at h
        exact h (hq v)
      show _ = (match dictLookup rest k with
        | some v2 => some v2
        | none => if k2 = k then some v else none)
      cases hd : dictLookup rest k with
      | some v2 => rfl
      | none => rw [if_neg hne]

/-! The claims. -/

/-- Claim C1: for every malformed-JSON input string passed via
`--config` (nonempty, so that it reaches the decoder; its sanitized
form fails JSON decoding), `load_config` does not raise or propagate an
exception: it prints the parse-error diagnostic and the original raw
input and returns the empty configuration, so the launcher is invoked
with the full documented defaults. -/
theorem claim_C1 (s : List Char) (hne : s ≠ [])
    (hfail : json_loads (sanitize s) = none) :
    load_config (some s) = ⟨Json.obj [], [Diag.parseError, Diag.received s]⟩
    ∧ main_entry (some s) = Except.ok defaultLaunchArgs
    ∧ mainTrace (some s) = [defaultLaunchArgs] := by
  have h := load_config_fail s hne hfail
  refine ⟨h, ?_, ?_⟩
  · have h2 := main_entry_of_obj (some s) [] (by rw [h])
    rwa [show launchArgsOf [] = defaultLaunchArgs from rfl] at h2
  · have h2 := mainTrace_of_obj (some s) [] (by rw [h])
    rwa [show launchArgsOf [] = defaultLaunchArgs from rfl] at h2

/-- Witness for claim C1 at the spec's example input, the nine
characters of an unterminated object. -/
theorem claim_C1_witness :
    load_config (some ("\x7bbad json".toList)) =
      ⟨Json.obj [], [Diag.parseError, Diag.received ("\x7bbad json".toList)]⟩
    ∧ main_entry (some ("\x7bbad json".toList)) = Except.ok defaultLaunchArgs
    ∧ mainTrace (some ("\x7bbad json".toList)) = [defaultLaunchArgs] :=
  claim_C1 ("\x7bbad json".toList) (by decide) rfl

/-- Claim C2: when the `--config` flag is omitted (`none`) or its value
is the empty string, the configuration passed to the launcher equals
the documented defaults table exactly: headless, geoip, humanize,
showcursor and mainWorldEval true, proxy absent (None), blockImages
and debug false. -/
theorem claim_C2 :
    main_entry none = Except.ok defaultLaunchArgs
    ∧ mainTrace none = [defaultLaunchArgs]
    ∧ main_entry (some []) = Except.ok defaultLaunchArgs
    ∧ mainTrace (some []) = [defaultLaunchArgs]
    ∧ defaultLaunchArgs.headless = Json.bool true
    ∧ defaultLaunchArgs.geoip = Json.bool true
    ∧ defaultLaunchArgs.proxy = Json.null
    ∧ defaultLaunchArgs.humanize = Json.bool true
    ∧ defaultLaunchArgs.showcursor = Json.bool true
    ∧ defaultLaunchArgs.block_images = Json.bool false
    ∧ defaultLaunchArgs.main_world_eval = Json.bool true
    ∧ defaultLaunchArgs.debug = Json.bool false :=
  ⟨rfl, rfl, rfl, rfl, rfl, rfl, rfl, rfl, rfl, rfl, rfl, rfl⟩

/-- Claim C8: on every invocation whose loaded configuration value is a
dict — so that the eight-option extraction completes and the finalized
configuration is obtained — the process performs exactly one call into
the external launcher, and that single call carries all eight options
(the eight fields of `LaunchArgs`) as named parameters. -/
theorem claim_C8 (arg : Option (List Char)) (kvs : List (List Char × Json))
    (h : (load_config arg).value = Json.obj kvs) :
    mainTrace arg = [launchArgsOf kvs] ∧ (mainTrace arg).length = 1 := by
  have ht := mainTrace_of_obj arg kvs h
  exact ⟨ht, by rw [ht]; rfl⟩

/-- Witness for claim C8 on an invocation with the flag omitted. -/
theorem claim_C8_witness :
    mainTrace none = [launchArgsOf []] ∧ (mainTrace none).length = 1 :=
  claim_C8 none [] rfl

/-- Claim C9 (implicit): for well-formed JSON inputs decoding to a
non-mapping value — `42`, `null`, `[1]` — `load_config` returns the
decoded value unchanged with no diagnostic (the malformed-input
fallback does not trigger), and the subsequent `config.get` option
extraction raises an uncaught `AttributeError`, so the launcher is
never called. -/
theorem claim_C9 :
    load_config (some ("42".toList)) = ⟨Json.num ("42".toList), []⟩
    ∧ main_entry (some ("42".toList)) = Except.error PyError.attributeError
    ∧ mainTrace (some ("42".toList)) = []
    ∧ load_config (some ("null".toList)) = ⟨Json.null, []⟩
    ∧ main_entry (some ("null".toList)) = Except.error PyError.attributeError
    ∧ mainTrace (some ("null".toList)) = []
    ∧ load_config (some ("[1]".toList)) = ⟨Json.arr [Json.num ("1".toList)], []⟩
    ∧ main_entry (some ("[1]".toList)) = Except.error PyError.attributeError
    ∧ mainTrace (some ("[1]".toList)) = [] :=
  ⟨rfl, rfl, rfl, rfl, rfl, rfl, rfl, rfl, rfl⟩

/-- Claim C3: for every well-formed JSON object input, each recognized
option present in the decoded dict overrides its default and each
absent one keeps its documented default, every launcher argument being
a function of the lookup at its own key alone (so no key's presence
affects another's value); the claim's concrete scenario is the witness
below. -/
theorem claim_C3 (s : List Char) (kvs : List (List Char × Json))
    (hne : s ≠ []) (hp : json_loads (sanitize s) = some (Json.obj kvs)) :
    mainTrace (some s) = [launchArgsOf kvs]
    ∧ (∀ k : ConfigOption, dictLookup kvs (optKeyChars k) = none →
        optOf (launchArgsOf kvs) k = optDefault k)
    ∧ (∀ (k : ConfigOption) (v : Json), dictLookup kvs (optKeyChars k) = some v →
        optOf (launchArgsOf kvs) k = v) := by
  have hv : (load_config (some s)).value = Json.obj kvs := by
    rw [load_config_pos s hne _ hp]
  refine ⟨mainTrace_of_obj (some s) kvs hv, ?_, ?_⟩
  · intro k hk
    cases k <;> simp [optKeyChars] at hk <;>
      simp [optOf, launchArgsOf, optDefault, dictGet, hk]
  · intro k v hk
    cases k <;> simp [optKeyChars] at hk <;>
      simp [optOf, launchArgsOf, dictGet, hk]

/-- Witness for claim C3: the spec's concrete scenario
`--config '\x7b"headless": false, "proxy": "http://localhost:8080"\x7d'`
overrides those two options and leaves the other six at their
defaults. -/
theorem claim_C3_witness :
    mainTrace
      (some ("\x7b\x22headless\x22: false, \x22proxy\x22: \x22http://localhost:8080\x22\x7d".toList)) =
    [{ headless := Json.bool false,
       geoip := Json.bool true,
       proxy := Json.str ("http://localhost:8080".toList),
       humanize := Json.bool true,
       showcursor := Json.bool true,
       block_images := Json.bool false,
       main_world_eval := Json.bool true,
       debug := Json.bool false }] := by
  have h := claim_C3
    ("\x7b\x22headless\x22: false, \x22proxy\x22: \x22http://localhost:8080\x22\x7d".toList)
    [(("headless".toList), Json.bool false),
     (("proxy".toList), Json.str ("http://localhost:8080".toList))]
    (by decide) rfl
  exact h.1.trans (by rfl)

/-- Claim C4: keys outside the eight recognized option names are
silently ignored — decoding still succeeds with no diagnostic, exactly
one launcher call is made, and the launcher arguments are unchanged by
restricting the decoded dict to the recognized keys (so unrecognized
keys are not propagated and affect nothing). -/
theorem claim_C4 (s : List Char) (kvs : List (List Char × Json))
    (hne : s ≠ []) (hp : json_loads (sanitize s) = some (Json.obj kvs)) :
    mainTrace (some s) = [launchArgsOf kvs]
    ∧ (load_config (some s)).printed = []
    ∧ launchArgsOf kvs =
        launchArgsOf (kvs.filter (fun kv => recognizedKeyList.contains kv.1)) := by
  have hv : (load_config (some s)).value = Json.obj kvs := by
    rw [load_config_pos s hne _ hp]
  refine ⟨mainTrace_of_obj (some s) kvs hv, by rw [load_config_pos s hne _ hp], ?_⟩
  have e1 := dictLookup_filter (fun kv => recognizedKeyList.contains kv.1) kvs
    ("headless".toList) (fun _ => rfl)
  have e2 := dictLookup_filter (fun kv => recognizedKeyList.contains kv.1) kvs
    ("geoip".toList) (fun _ => rfl)
  have e3 := dictLookup_filter (fun kv => recognizedKeyList.contains kv.1) kvs
    ("proxy".toList) (fun _ => rfl)
  have e4 := dictLookup_filter (fun kv => recognizedKeyList.contains kv.1) kvs
    ("humanize".toList) (fun _ => rfl)
  have e5 := dictLookup_filter (fun kv => recognizedKeyList.contains kv.1) kvs
    ("showcursor".toList) (fun _ => rfl)
  have e6 := dictLookup_filter (fun kv => recognizedKeyList.contains kv.1) kvs
    ("blockImages".toList) (fun _ => rfl)
  have e7 := dictLookup_filter (fun kv => recognizedKeyList.contains kv.1) kvs
    ("mainWorldEval".toList) (fun _ => rfl)
  have e8 := dictLookup_filter (fun kv => recognizedKeyList.contains kv.1) kvs
    ("debug".toList) (fun _ => rfl)
  simp only [launchArgsOf, dictGet, e1, e2, e3, e4, e5, e6, e7, e8]

/-- Witness for claim C4 on an input with the unrecognized key `zzz`
next to the recognized key `debug`. -/
theorem claim_C4_witness :
    mainTrace (some ("\x7b\x22zzz\x22: 1, \x22debug\x22: true\x7d".toList)) =
      [launchArgsOf [(("zzz".toList), Json.num ("1".toList)),
                     (("debug".toList), Json.bool true)]]
    ∧ (load_config (some ("\x7b\x22zzz\x22: 1, \x22debug\x22: true\x7d".toList))).printed = []
    ∧ launchArgsOf [(("zzz".toList), Json.num ("1".toList)),
                    (("debug".toList), Json.bool true)] =
        launchArgsOf ([(("zzz".toList), Json.num ("1".toList)),
                       (("debug".toList), Json.bool true)].filter
          (fun kv => recognizedKeyList.contains kv.1)) :=
  claim_C4 ("\x7b\x22zzz\x22: 1, \x22debug\x22: true\x7d".toList)
    [(("zzz".toList), Json.num ("1".toList)), (("debug".toList), Json.bool true)]
    (by decide) rfl

/-- Claim C7: for every recognized option key present in the decoded
dict, the value handed to the launcher for that option is the decoded
value itself, whatever its type — no coercion or validation happens
between `json.loads` and the `launch_server` call. -/
theorem claim_C7 (s : List Char) (kvs : List (List Char × Json))
    (k : ConfigOption) (v : Json)
    (hne : s ≠ []) (hp : json_loads (sanitize s) = some (Json.obj kvs))
    (hk : dictLookup kvs (optKeyChars k) = some v) :
    mainTrace (some s) = [launchArgsOf kvs] ∧ optOf (launchArgsOf kvs) k = v := by
  have hv : (load_config (some s)).value = Json.obj kvs := by
    rw [load_config_pos s hne _ hp]
  refine ⟨mainTrace_of_obj (some s) kvs hv, ?_⟩
  cases k <;> simp [optKeyChars] at hk <;> simp [optOf, launchArgsOf, dictGet, hk]

/-- Witness for claim C7 on a wrongly-typed value: the string `"yes"`
supplied for the boolean option `headless` is passed through as that
string. -/
theorem claim_C7_witness :
    mainTrace (some ("\x7b\x22headless\x22: \x22yes\x22\x7d".toList)) =
      [launchArgsOf [(("headless".toList), Json.str ("yes".toList))]]
    ∧ optOf (launchArgsOf [(("headless".toList), Json.str ("yes".toList))])
        ConfigOption.headless = Json.str ("yes".toList) :=
  claim_C7 ("\x7b\x22headless\x22: \x22yes\x22\x7d".toList)
    [(("headless".toList), Json.str ("yes".toList))]
    ConfigOption.headless (Json.str ("yes".toList)) (by decide) rfl rfl

/-- Counterexample to claim C5 as stated: on the trimmed input
`""\x7b\x7d""` (two layers of double quotes around an empty object),
the string handed to the decoder is `\x7b\x7d` — neither the trimmed
input itself (zero layers removed) nor the trimmed input with a single
wrapping quote layer removed (which is `"\x7b\x7d"`), so sanitization
does not strip at most one layer. -/
theorem claim_C5_cex :
    pyStrip ("\x22\x22\x7b\x7d\x22\x22".toList) = ("\x22\x22\x7b\x7d\x22\x22".toList)
    ∧ sanitize ("\x22\x22\x7b\x7d\x22\x22".toList) = ("\x7b\x7d".toList)
    ∧ specOneLayerStrip ("\x22\x22\x7b\x7d\x22\x22".toList) = ("\x22\x7b\x7d\x22".toList)
    ∧ (sanitize ("\x22\x22\x7b\x7d\x22\x22".toList)
        == ("\x22\x22\x7b\x7d\x22\x22".toList)) = false
    ∧ (sanitize ("\x22\x22\x7b\x7d\x22\x22".toList)
        == specOneLayerStrip ("\x22\x22\x7b\x7d\x22\x22".toList)) = false :=
  ⟨rfl, rfl, rfl, rfl, rfl⟩

/-- Claim C5, amended: sanitization removes leading/trailing whitespace
and then strips ALL leading and trailing quote characters (double or
single, in any combination, not just a single matching layer): the
string handed to the JSON decoder is the trimmed input with a maximal
run of quote characters removed from each end, so its own ends carry no
quote character. -/
theorem claim_C5 (s : List Char) :
    ∃ cs ds as bs,
      s = cs ++ pyStrip s ++ ds
      ∧ cs.all isPyWs = true ∧ ds.all isPyWs = true
      ∧ pyStrip s = as ++ sanitize s ++ bs
      ∧ as.all isQuoteChar = true ∧ bs.all isQuoteChar = true
      ∧ (sanitize s).head?.all (fun c => !isQuoteChar c) = true
      ∧ (sanitize s).getLast?.all (fun c => !isQuoteChar c) = true := by
  obtain ⟨cs, ds, h1, h2, h3⟩ := stripChars_decomp isPyWs s
  obtain ⟨as, bs, h4, h5, h6⟩ := stripChars_decomp isQuoteChar (pyStrip s)
  exact ⟨cs, ds, as, bs, h1, h2, h3, h4, h5, h6,
    stripChars_head_not isQuoteChar (pyStrip s),
    stripChars_getLast_not isQuoteChar (pyStrip s)⟩

/-- Claim C6: wrapping a JSON object text (a string starting at its
opening brace and ending at its closing brace, decodable as an object)
in one layer of matching quote characters together with surrounding
whitespace yields the same loaded configuration as the text itself. -/
theorem claim_C6 (s w1 w2 : List Char) (q : Char) (kvs : List (List Char × Json))
    (hq : isQuoteChar q = true)
    (hw1 : w1.all isPyWs = true) (hw2 : w2.all isPyWs = true)
    (hh : s.head? = some lbrace) (hl : s.getLast? = some rbrace)
    (hp : json_loads s = some (Json.obj kvs)) :
    load_config (some (w1 ++ q :: (s ++ q :: w2))) = load_config (some s) := by
  have hq2 : q = dquote ∨ q = squote := by
    simp only [isQuoteChar, Bool.or_eq_true, beq_iff_eq] at hq
    exact hq
  have hqws : isPyWs q = false := by
    rcases hq2 with h | h <;> rw [h] <;> rfl
  have hs_ne : s ≠ [] := by
    intro he
    rw [he] at hh
    exact Option.noConfusion hh
  have hhead_pyws : s.head?.all (fun c => !isPyWs c) = true := by
    rw [hh, Option.all_some]; rfl
  have hlast_pyws : s.getLast?.all (fun c => !isPyWs c) = true := by
    rw [hl, Option.all_some]; rfl
  have hhead_q : s.head?.all (fun c => !isQuoteChar c) = true := by
    rw [hh, Option.all_some]; rfl
  have hlast_q : s.getLast?.all (fun c => !isQuoteChar c) = true := by
    rw [hl, Option.all_some]; rfl
  have hsan_s : sanitize s = s := by
    show stripChars isQuoteChar (stripChars isPyWs s) = s
    rw [stripChars_id isPyWs s hhead_pyws hlast_pyws,
      stripChars_id isQuoteChar s hhead_q hlast_q]
  have hmid_eq : (q :: (s ++ q :: w2)) = (q :: (s ++ [q])) ++ w2 := by
    simp
  have hwform : w1 ++ q :: (s ++ q :: w2) = w1 ++ (q :: (s ++ [q])) ++ w2 := by
    rw [List.append_assoc, ← hmid_eq]
  have hmid_h : (q :: (s ++ [q])).head?.all (fun c => !isPyWs c) = true := by
    rw [List.head?_cons, Option.all_some, hqws]; rfl
  have hmid_last : (q :: (s ++ [q])).getLast? = some q := by
    rw [show q :: (s ++ [q]) = (q :: s) ++ [q] from by simp, List.getLast?_concat]
  have hmid_l : (q :: (s ++ [q])).getLast?.all (fun c => !isPyWs c) = true := by
    rw [hmid_last, Option.all_some, hqws]; rfl
  have hpy : pyStrip (w1 ++ (q :: (s ++ [q])) ++ w2) = q :: (s ++ [q]) :=
    stripChars_wrap isPyWs w1 _ w2 hw1 hw2 hmid_h hmid_l
  have hquote_strip : stripQuoteChars (q :: (s ++ [q])) = s := by
    rw [show q :: (s ++ [q]) = [q] ++ s ++ [q] from by simp]
    exact stripChars_wrap isQuoteChar [q] s [q]
      (by rw [List.all_cons, hq]; rfl) (by rw [List.all_cons, hq]; rfl)
      hhead_q hlast_q
  have hsan_w : sanitize (w1 ++ q :: (s ++ q :: w2)) = s := by
    rw [hwform]
    show stripQuoteChars (pyStrip _) = s
    rw [hpy, hquote_strip]
  have hw_ne : w1 ++ q :: (s ++ q :: w2) ≠ [] := by
    simp
  rw [load_config_pos _ hw_ne (Json.obj kvs) (by rw [hsan_w]; exact hp),
    load_config_pos s hs_ne (Json.obj kvs) (by rw [hsan_s]; exact hp)]

/-- Witness for claim C6: the empty object text wrapped in double
quotes with a leading space loads the same configuration as the bare
empty object text. -/
theorem claim_C6_witness :
    load_config
      (some (['\x20'] ++ dquote :: (("\x7b\x7d".toList) ++ dquote :: ([] : List Char)))) =
      load_config (some ("\x7b\x7d".toList)) :=
  claim_C6 ("\x7b\x7d".toList) ['\x20'] [] dquote [] rfl rfl rfl rfl rfl rfl

/-- Counterexample to claim C10 as stated: the input `"true"` (with its
double-quote delimiters) is a well-formed JSON document consisting of a
top-level quoted string, and quote stripping does remove the
delimiters — but the remaining text `true` decodes successfully, so
`load_config` returns `True` with no diagnostic instead of the empty
configuration with a diagnostic. -/
theorem claim_C10_cex :
    json_loads (pyStrip ("\x22true\x22".toList)) = some (Json.str ("true".toList))
    ∧ sanitize ("\x22true\x22".toList) = ("true".toList)
    ∧ load_config (some ("\x22true\x22".toList)) = ⟨Json.bool true, []⟩
    ∧ Json.isObj (load_config (some ("\x22true\x22".toList))).value = false
    ∧ (load_config (some ("\x22true\x22".toList))).printed = [] :=
  ⟨rfl, rfl, rfl, rfl, rfl⟩

/-- Claim C10, amended: for every `--config` value whose trimmed form
is a well-formed JSON document consisting of a top-level quoted string,
where the text between the delimiters neither starts nor ends with a
quote character and is itself NOT decodable as JSON (this excludes
inputs like `"true"`, on which the code returns the decoded inner
value instead), quote stripping removes the string's own delimiters,
the remaining text fails JSON decoding, and `load_config` returns the
empty configuration with the diagnostic message. -/
theorem claim_C10 (s inner w : List Char)
    (_hdoc : json_loads (pyStrip s) = some (Json.str w))
    (hsh : pyStrip s = dquote :: (inner ++ [dquote]))
    (hh : inner.head?.all (fun c => !isQuoteChar c) = true)
    (hl : inner.getLast?.all (fun c => !isQuoteChar c) = true)
    (hfail : json_loads inner = none) :
    sanitize s = inner
    ∧ load_config (some s) = ⟨Json.obj [], [Diag.parseError, Diag.received s]⟩ := by
  have hs_ne : s ≠ [] := by
    intro he
    rw [he] at hsh
    exact List.noConfusion
      (show ([] : List Char) = dquote :: (inner ++ [dquote]) from hsh)
  have hsan : sanitize s = inner := by
    show stripChars isQuoteChar (pyStrip s) = inner
    rw [hsh, show dquote :: (inner ++ [dquote]) = [dquote] ++ inner ++ [dquote] from by simp]
    exact stripChars_wrap isQuoteChar [dquote] inner [dquote] rfl rfl hh hl
  refine ⟨hsan, load_config_fail s hs_ne ?_⟩
  rw [hsan]
  exact hfail

/-- Witness for claim C10 at the claim's example `"abc"`: the
delimiters are stripped and decoding `abc` fails, so the empty
configuration and the diagnostics result. -/
theorem claim_C10_witness :
    sanitize ("\x22abc\x22".toList) = ("abc".toList)
    ∧ load_config (some ("\x22abc\x22".toList)) =
        ⟨Json.obj [], [Diag.parseError, Diag.received ("\x22abc\x22".toList)]⟩ :=
  claim_C10 ("\x22abc\x22".toList) ("abc".toList) ("abc".toList)
    rfl rfl (by decide) (by decide) rfl
